import Mathlib

/-!
# Verification of the bm-dhcp-tap DHCP ACK sniffer

Shallow embedding of `scripts/tools/bm-dhcp-tap.py`: the DHCP option
scanner `_parse_options`, the frame decoder `parse_dhcp_ack`, and the
capture/dispatch loop of `main`.

Conventions of the embedding:

* A byte sequence (Python `bytes`) is a `List Nat` whose members are the
  byte values.
* Python indexing `b[i]` can raise `IndexError` and `struct.unpack_from`
  can raise `struct.error`; fallible reads are modelled with `List.getElem?`
  and the failure is propagated as the outer `none` of an `Option` result.
  Thus for the decoder, `none` models "an exception escaped", `some none`
  models the Python return value `None` (rejection) and `some (some obs)`
  models an accepted lease observation.
* Python slices `b[lo:hi]` and `b[lo:]` never raise; they clamp to the
  buffer, exactly as `pySlice` and `List.drop` do.
* The `while` loop of `_parse_options` is embedded with an explicit fuel
  parameter (`parseOptsGo`); exhausted fuel yields `none`.  The theorems
  show that fuel `payload.length + 1` always suffices, which is the
  termination argument for the source loop.
-/

set_option maxRecDepth 10000

abbrev ByteSeq := List Nat

/-- Read one byte, defaulting to 0; used only to state field accessors.
Inside the embedded code itself, reads that can raise use `getElem?`. -/
def byteAt (b : ByteSeq) (i : Nat) : Nat := (b[i]?).getD 0

/-- Python slice `b[lo:hi]` (never raises, clamps to the buffer). -/
def pySlice (b : ByteSeq) (lo hi : Nat) : ByteSeq := (b.drop lo).take (hi - lo)

/-- Model of `struct.unpack_from(n, b, off)[0]` for one big-endian 16-bit
field: reads bytes `off` and `off+1`; `none` models `struct.error` when the
buffer is too short. -/
def unpack16be (b : ByteSeq) (off : Nat) : Option Nat :=
  match b[off]?, b[off + 1]? with
  | some hi, some lo => some (hi * 256 + lo)
  | _, _ => none

/-- Model of `socket.inet_ntoa`: requires exactly 4 bytes, renders dotted
decimal; `none` models the exception raised on any other length. -/
def inet_ntoa (b : ByteSeq) : Option String :=
  match b with
  | [a, b2, c, d] =>
      some (Nat.repr a ++ "." ++ Nat.repr b2 ++ "." ++ Nat.repr c ++ "." ++ Nat.repr d)
  | _ => none

/-- Python `f-string` format `{b:02x}`: lowercase hex, left-padded with `0`
to width 2. -/
def pyHex02 (n : Nat) : String :=
  let ds := Nat.toDigits 16 n
  ⟨List.replicate (2 - ds.length) '0' ++ ds⟩

/-- Model of `':'.join(f'{b:02x}' for b in s)`. -/
def macString (b : ByteSeq) : String := String.intercalate ":" (b.map pyHex02)

/-- Model of `bytes.decode('ascii', errors='replace')`: bytes below 0x80
decode to themselves, anything else becomes U+FFFD; never fails. -/
def asciiReplace (b : ByteSeq) : String :=
  ⟨b.map (fun v => if v < 128 then Char.ofNat v else '�')⟩

/-- The DHCP magic cookie `b'\x63\x82\x53\x63'`. -/
def DHCP_MAGIC : ByteSeq := [0x63, 0x82, 0x53, 0x63]

/-- The Python `dict` built by `_parse_options`, as a map from option code
to raw value bytes. -/
abbrev Dict := Nat → Option ByteSeq

def Dict.empty : Dict := fun _ => none

/-- Python `opts[code] = value`: later insertions overwrite earlier ones. -/
def Dict.insert (d : Dict) (k : Nat) (v : ByteSeq) : Dict :=
  fun k2 => if k2 = k then some v else d k2

/-- The `while i < n` loop body of `_parse_options`, with explicit fuel.
`none` means the fuel ran out (or a guarded read failed, which the theorems
rule out); `some opts` is the dict returned by the source. -/
def parseOptsGo (p : ByteSeq) : Nat → Nat → Dict → Option Dict
  | 0, _, _ => none
  | fuel + 1, i, opts =>
    if i < p.length then
      match p[i]? with
      | none => none                                   -- payload[i]
      | some code =>
        if code = 255 then some opts                   -- END
        else if code = 0 then parseOptsGo p fuel (i + 1) opts  -- PAD
        else if p.length ≤ i + 1 then some opts        -- if i + 1 >= n: break
        else
          match p[i + 1]? with
          | none => none                               -- payload[i + 1]
          | some lenB =>
            if p.length < i + 2 + lenB then some opts  -- if i + 2 + length > n: break
            else
              parseOptsGo p fuel (i + 2 + lenB)
                (opts.insert code (pySlice p (i + 2) (i + 2 + lenB)))
    else some opts

/-- Model of `_parse_options(payload, start)`.  The loop advances by at
least one position per iteration, so `payload.length + 1` units of fuel
always suffice (proved below). -/
def parse_options (p : ByteSeq) (start : Nat) : Option Dict :=
  parseOptsGo p (p.length + 1) start Dict.empty

/-- The option table as a total value (the dict `_parse_options` returns);
faithful because `parse_options` provably never returns `none`. -/
def optionsTable (p : ByteSeq) (start : Nat) : Dict :=
  (parse_options p start).getD Dict.empty

/-- The `(code, value)` records of the scan of `_parse_options`, in the
order they are written into the dict.  Mirrors `parseOptsGo` branch for
branch; used to state the duplicate-code-overwrite behaviour. -/
def optOccs (p : ByteSeq) : Nat → Nat → List (Nat × ByteSeq)
  | 0, _ => []
  | fuel + 1, i =>
    if i < p.length then
      match p[i]? with
      | none => []
      | some code =>
        if code = 255 then []
        else if code = 0 then optOccs p fuel (i + 1)
        else if p.length ≤ i + 1 then []
        else
          match p[i + 1]? with
          | none => []
          | some lenB =>
            if p.length < i + 2 + lenB then []
            else (code, pySlice p (i + 2) (i + 2 + lenB)) :: optOccs p fuel (i + 2 + lenB)
    else []

/-- Value of the last record with key `c` in a record list (if any). -/
def lookupLast : List (Nat × ByteSeq) → Nat → Option ByteSeq
  | [], _ => none
  | cv :: rest, c =>
    match lookupLast rest c with
    | some v => some v
    | none => if cv.1 = c then some cv.2 else none

/-- The `(ip, mac, hostname)` tuple returned by `parse_dhcp_ack` on an
accepted DHCP ACK frame. -/
structure LeaseObservation where
  ip : String
  mac : String
  hostname : String
deriving DecidableEq, Repr

/-- Model of `parse_dhcp_ack(frame)`.  Outer `none` = an exception escaped
(index/struct/inet errors, provably impossible); `some none` = the Python
return value `None`; `some (some obs)` = accepted.  The pure string
renderings `yiaddr`/`chaddr` of the source are evaluated at their use
sites; `inet_ntoa`, the one fallible one, is kept at its source position
(before the magic-cookie check). -/
def parse_dhcp_ack (f : ByteSeq) : Option (Option LeaseObservation) :=
  -- Ethernet (14 bytes)
  if f.length < 14 then some none
  else
    match unpack16be f 12 with
    | none => none
    | some ethertype =>
      if ethertype ≠ 0x0800 then some none
      else
        -- IP header (ip_off = 14)
        if f.length < 14 + 20 then some none
        else
          match f[14]? with
          | none => none
          | some b14 =>            -- ihl = (b14 & 0x0F) * 4 = b14 % 16 * 4
            match f[23]? with
            | none => none
            | some proto =>
              if proto ≠ 17 then some none
              else
                -- UDP header (8 bytes), udp_off = 14 + ihl
                if f.length < 14 + b14 % 16 * 4 + 8 then some none
                else
                  match unpack16be f (14 + b14 % 16 * 4) with
                  | none => none
                  | some src_port =>
                    match unpack16be f (14 + b14 % 16 * 4 + 2) with
                    | none => none
                    | some dst_port =>
                      if src_port ≠ 67 ∨ dst_port ≠ 68 then some none
                      else
                        -- BOOTP / DHCP payload, dhcp = frame[udp_off + 8:]
                        if (f.drop (14 + b14 % 16 * 4 + 8)).length < 240 then some none
                        else
                          match (f.drop (14 + b14 % 16 * 4 + 8))[0]? with
                          | none => none
                          | some op =>
                            if op ≠ 2 then some none
                            else
                              match inet_ntoa (pySlice (f.drop (14 + b14 % 16 * 4 + 8)) 16 20) with
                              | none => none
                              | some yiaddr =>
                                if pySlice (f.drop (14 + b14 % 16 * 4 + 8)) 236 240 ≠ DHCP_MAGIC
                                then some none
                                else
                                  match parse_options (f.drop (14 + b14 % 16 * 4 + 8)) 240 with
                                  | none => none
                                  | some opts =>
                                    if (opts 53).getD [0] ≠ [5] then some none
                                    else
                                      some (some
                                        { ip := yiaddr
                                          mac := macString
                                            (pySlice (f.drop (14 + b14 % 16 * 4 + 8)) 28 34)
                                          hostname :=
                                            match opts 12 with
                                            | some v => asciiReplace v
                                            | none => "unknown" })

/-! ## Field accessors

Total projections of the protocol fields a frame carries, used to state the
claims; each mirrors the read the decoder performs at that offset. -/

def ethertypeOf (f : ByteSeq) : Nat := byteAt f 12 * 256 + byteAt f 13

def ihlOf (f : ByteSeq) : Nat := byteAt f 14 % 16 * 4

def udpOffOf (f : ByteSeq) : Nat := 14 + ihlOf f

def protoOf (f : ByteSeq) : Nat := byteAt f 23

def srcPortOf (f : ByteSeq) : Nat :=
  byteAt f (udpOffOf f) * 256 + byteAt f (udpOffOf f + 1)

def dstPortOf (f : ByteSeq) : Nat :=
  byteAt f (udpOffOf f + 2) * 256 + byteAt f (udpOffOf f + 3)

def dhcpOf (f : ByteSeq) : ByteSeq := f.drop (udpOffOf f + 8)

def opOf (f : ByteSeq) : Nat := byteAt (dhcpOf f) 0

def cookieOf (f : ByteSeq) : ByteSeq := pySlice (dhcpOf f) 236 240

def optTableOf (f : ByteSeq) : Dict := optionsTable (dhcpOf f) 240

/-- Value compared by `opts.get(53, b'\x00') != b'\x05'`. -/
def opt53Of (f : ByteSeq) : ByteSeq := (optTableOf f 53).getD [0]

def opt12Of (f : ByteSeq) : Option ByteSeq := optTableOf f 12

/-- Hostname as derived from option 12 by the source: ASCII decoding with
replacement when present, the literal `"unknown"` when absent. -/
def hostnameOf12 (f : ByteSeq) : String :=
  match opt12Of f with
  | some v => asciiReplace v
  | none => "unknown"

/-! ## UTF-8 encoding, following the specification's words

The specification describes the hostname as text decoded from option 12
as UTF-8 with invalid sequences replaced.  To compare, `utf8EncodeSpec`
renders a string's UTF-8 bytes (standard UTF-8 as the spec's words mean). -/

def utf8CharBytes (c : Char) : List Nat :=
  let n := c.toNat
  if n < 0x80 then [n]
  else if n < 0x800 then [0xC0 + n / 64, 0x80 + n % 64]
  else if n < 0x10000 then
    [0xE0 + n / 4096, 0x80 + n / 64 % 64, 0x80 + n % 64]
  else
    [0xF0 + n / 262144, 0x80 + n / 4096 % 64, 0x80 + n / 64 % 64, 0x80 + n % 64]

def utf8EncodeSpec (s : String) : List Nat :=
  (s.data.map utf8CharBytes).flatten

/-! ## Capture loop and dispatch (`main`)

The loop is modelled as a trace of effects over an environment supplying
the outcome of each blocking `recvfrom` and of each attempted `Popen`.
`parse_dhcp_ack` is total (outer layer provably `some`, see below), so the
loop consumes its inner value via `Option.getD none`. -/

/-- One outcome of the blocking `sock.recvfrom(65535)` call, with the
outcome of the `Popen` attempt attached to a received frame. -/
inductive RecvEvent where
  | interrupt
  | recvError
  | frame (data : ByteSeq) (spawnFails : Bool)
deriving DecidableEq, Repr

/-- Environment of one run of `main`: whether `os.path.isfile(HOOK_PATH)`
holds, whether `SYSLOG_SERVER` is configured, and the receive outcomes. -/
structure Env where
  hookExists : Bool
  syslogServer : Bool
  events : List RecvEvent
deriving DecidableEq, Repr

/-- Observable effects of `main`, in order. -/
inductive Effect where
  | logStart
  | logSyslog
  | logHookMissing
  | exitProc (code : Nat)
  | openSock
  | bindSock
  | logListen
  | logShutdown
  | logRecvError
  | logAck (ip mac hostname : String)
  | spawnHook (ip mac hostname : String)
  | logHookFail
  | closeSock
deriving DecidableEq, Repr

/-- The `while True` receive/decode/dispatch loop of `main`. -/
def captureLoop : List RecvEvent → List Effect
  | [] => []
  | RecvEvent.interrupt :: _ => [Effect.logShutdown, Effect.closeSock]
  | RecvEvent.recvError :: rest => Effect.logRecvError :: captureLoop rest
  | RecvEvent.frame data spawnFails :: rest =>
    match (parse_dhcp_ack data).getD none with
    | none => captureLoop rest
    | some obs =>
      Effect.logAck obs.ip obs.mac obs.hostname ::
        (if spawnFails then [Effect.logHookFail]
         else [Effect.spawnHook obs.ip obs.mac obs.hostname]) ++ captureLoop rest

/-- Model of `main()`: startup logging, the hook-script existence check
(fatal, `sys.exit(1)`), then socket creation, bind, and the capture loop. -/
def runMain (env : Env) : List Effect :=
  Effect.logStart ::
    (if env.syslogServer then [Effect.logSyslog] else []) ++
      (if env.hookExists then
        Effect.openSock :: Effect.bindSock :: Effect.logListen :: captureLoop env.events
      else [Effect.logHookMissing, Effect.exitProc 1])

/-! ## Concrete frames used as test vectors -/

/-- Fixed 236-byte BOOTP header plus magic cookie, parameterised by the
`op`/`htype` bytes, `yiaddr` and the first six `chaddr` bytes. -/
def bootpHdr (op htype : Nat) (yi mac6 : ByteSeq) : ByteSeq :=
  [op, htype, 6, 0] ++ List.replicate 12 0 ++ yi ++ List.replicate 8 0 ++
    mac6 ++ List.replicate 10 0 ++ List.replicate 192 0 ++ DHCP_MAGIC

def ethHdr : ByteSeq := List.replicate 6 0xff ++ List.replicate 6 0x52 ++ [0x08, 0x00]

def ipHdr : ByteSeq :=
  [0x45, 0, 1, 16, 0, 0, 0, 0, 64, 17, 0, 0, 10, 0, 0, 1, 10, 0, 0, 255]

def udpHdr : ByteSeq := [0, 67, 0, 68, 0, 248, 0, 0]

/-- Well-formed DHCPACK frame: yiaddr 10.0.0.5, chaddr aa:bb:cc:dd:ee:ff,
option 53 = 5, option 12 = "node1". -/
def frame5 : ByteSeq :=
  ethHdr ++ ipHdr ++ udpHdr ++
    bootpHdr 2 1 [10, 0, 0, 5] [0xaa, 0xbb, 0xcc, 0xdd, 0xee, 0xff] ++
    [53, 1, 5, 12, 5, 110, 111, 100, 101, 49, 255]

/-- Same frame but option 12 carries the UTF-8 bytes `c3 a9` of "é". -/
def frame6 : ByteSeq :=
  ethHdr ++ ipHdr ++ udpHdr ++
    bootpHdr 2 1 [10, 0, 0, 5] [0xaa, 0xbb, 0xcc, 0xdd, 0xee, 0xff] ++
    [53, 1, 5, 12, 2, 0xc3, 0xa9, 255]

/-- Frame whose IP first byte is 0x00: IHL nibble 0, so the UDP header is
read at offset 14, inside the 20 bytes checked as the IP header.  The UDP
source-port bytes double as the IP version/IHL byte (0x00, 0x43). -/
def frame10 : ByteSeq :=
  List.replicate 12 0 ++ [0x08, 0x00] ++ [0, 67, 0, 68, 0, 0, 0, 0] ++
    bootpHdr 2 17 [10, 0, 0, 7] [1, 2, 3, 4, 5, 6] ++ [53, 1, 5, 255]

/-! ## Helper lemmas -/

theorem byteAt_of_getElem? {b : ByteSeq} {i v : Nat} (h : b[i]? = some v) :
    byteAt b i = v := by
  simp [byteAt, h]

theorem unpack16be_none {b : ByteSeq} {off : Nat} (h : unpack16be b off = none) :
    b.length < off + 2 := by
  unfold unpack16be at h
  cases h1 : b[off]? with
  | none => have := List.getElem?_eq_none_iff.mp h1; omega
  | some hi =>
    cases h2 : b[off + 1]? with
    | none => have := List.getElem?_eq_none_iff.mp h2; omega
    | some lo => simp [h1, h2] at h

theorem unpack16be_some {b : ByteSeq} {off v : Nat} (h : unpack16be b off = some v) :
    v = byteAt b off * 256 + byteAt b (off + 1) := by
  unfold unpack16be at h
  cases h1 : b[off]? with
  | none => simp [h1] at h
  | some hi =>
    cases h2 : b[off + 1]? with
    | none => simp [h1, h2] at h
    | some lo =>
      simp only [h1, h2, Option.some.injEq] at h
      simp [byteAt, h1, h2, ← h]

theorem pySlice_length (b : ByteSeq) (lo hi : Nat) :
    (pySlice b lo hi).length = min (hi - lo) (b.length - lo) := by
  simp [pySlice]

theorem inet_ntoa_ne_none {b : ByteSeq} (h : b.length = 4) : inet_ntoa b ≠ none := by
  rcases b with _ | ⟨a, _ | ⟨b2, _ | ⟨c, _ | ⟨d, _ | ⟨e, t⟩⟩⟩⟩⟩ <;>
    simp_all [inet_ntoa]

theorem optOccs_fuel_irrel (p : ByteSeq) :
    ∀ f1 f2 i, p.length - i < f1 → p.length - i < f2 →
      optOccs p f1 i = optOccs p f2 i := by
  intro f1
  induction f1 with
  | zero => intro f2 i h1 _; omega
  | succ f1 ih =>
    intro f2 i h1 h2
    cases f2 with
    | zero => omega
    | succ f2 =>
      by_cases hi : i < p.length
      · cases hc : p[i]? with
        | none => simp [optOccs, hi, hc]
        | some code =>
          by_cases h255 : code = 255
          · simp [optOccs, hi, hc, h255]
          · by_cases h0 : code = 0
            · simp only [optOccs, hi, if_true, hc, h255, if_false, h0]
              exact ih f2 (i + 1) (by omega) (by omega)
            · by_cases hb : p.length ≤ i + 1
              · simp [optOccs, hi, hc, h255, h0, hb]
              · cases hc2 : p[i + 1]? with
                | none =>
                  have := List.getElem?_eq_none_iff.mp hc2; omega
                | some lenB =>
                  by_cases hov : p.length < i + 2 + lenB
                  · simp [optOccs, hi, hc, h255, h0, hb, hc2, hov]
                  · simp only [optOccs, hi, if_true, hc, h255, h0, hb, hc2, hov, if_false]
                    rw [ih f2 (i + 2 + lenB) (by omega) (by omega)]
      · simp [optOccs, hi]

theorem parseOptsGo_eq_foldl (p : ByteSeq) :
    ∀ fuel i opts, p.length - i < fuel →
      parseOptsGo p fuel i opts =
        some ((optOccs p fuel i).foldl (fun a cv => a.insert cv.1 cv.2) opts) := by
  intro fuel
  induction fuel with
  | zero => intro i opts h; omega
  | succ fuel ih =>
    intro i opts h
    by_cases hi : i < p.length
    · cases hc : p[i]? with
      | none =>
        have := List.getElem?_eq_none_iff.mp hc; omega
      | some code =>
        by_cases h255 : code = 255
        · simp [parseOptsGo, optOccs, hi, hc, h255]
        · by_cases h0 : code = 0
          · simp only [parseOptsGo, optOccs, hi, if_true, hc, h255, if_false, h0]
            exact ih (i + 1) opts (by omega)
          · by_cases hb : p.length ≤ i + 1
            · simp [parseOptsGo, optOccs, hi, hc, h255, h0, hb]
            · cases hc2 : p[i + 1]? with
              | none =>
                have := List.getElem?_eq_none_iff.mp hc2; omega
              | some lenB =>
                by_cases hov : p.length < i + 2 + lenB
                · simp [parseOptsGo, optOccs, hi, hc, h255, h0, hb, hc2, hov]
                · simp only [parseOptsGo, optOccs, hi, if_true, hc, h255, h0, hb, hc2,
                    hov, if_false, List.foldl_cons]
                  exact ih (i + 2 + lenB) _ (by omega)
    · simp [parseOptsGo, optOccs, hi]

theorem parse_options_ne_none (p : ByteSeq) (start : Nat) :
    parse_options p start ≠ none := by
  unfold parse_options
  rw [parseOptsGo_eq_foldl p (p.length + 1) start Dict.empty (by omega)]
  simp

theorem parse_options_eq_some (p : ByteSeq) (start : Nat) :
    parse_options p start = some (optionsTable p start) := by
  unfold optionsTable
  cases h : parse_options p start with
  | none => exact absurd h (parse_options_ne_none p start)
  | some d => simp

theorem foldl_insert_apply :
    ∀ (l : List (Nat × ByteSeq)) (opts : Dict) (c : Nat),
      (l.foldl (fun a cv => a.insert cv.1 cv.2) opts) c =
        match lookupLast l c with
        | some v => some v
        | none => opts c := by
  intro l
  induction l with
  | nil => intro opts c; simp [lookupLast]
  | cons cv t ih =>
    intro opts c
    simp only [List.foldl_cons, lookupLast]
    rw [ih]
    cases hl : lookupLast t c with
    | some v => simp
    | none =>
      by_cases hc : cv.1 = c
      · subst hc; simp [Dict.insert]
      · have hc2 : ¬ c = cv.1 := fun h2 => hc h2.symm
        simp [Dict.insert, hc, hc2]

theorem lookupLast_ne_none {l : List (Nat × ByteSeq)} {c : Nat} {x : Nat × ByteSeq}
    (hx : x ∈ l) (hc : x.1 = c) : lookupLast l c ≠ none := by
  induction l with
  | nil => simp at hx
  | cons cv t ih =>
    simp only [lookupLast]
    cases hl : lookupLast t c with
    | some v => simp
    | none =>
      rcases List.mem_cons.mp hx with h | h
      · subst h; simp [hc]
      · exact absurd hl (ih h)

/-- Case analysis of `parse_dhcp_ack`: every frame is either rejected
(`some none`) or accepted with all protocol-field constraints satisfied;
the outer exception layer `none` is impossible. -/
theorem decode_shape (f : ByteSeq) :
    parse_dhcp_ack f = some none ∨
    ∃ obs : LeaseObservation, parse_dhcp_ack f = some (some obs) ∧
      14 ≤ f.length ∧ ethertypeOf f = 0x0800 ∧ protoOf f = 17 ∧
      srcPortOf f = 67 ∧ dstPortOf f = 68 ∧ opOf f = 2 ∧
      cookieOf f = DHCP_MAGIC ∧ opt53Of f = [5] ∧
      obs.hostname = hostnameOf12 f := by
  by_cases h1 : f.length < 14
  · exact Or.inl (by simp [parse_dhcp_ack, h1])
  · cases hu : unpack16be f 12 with
    | none => exact absurd (unpack16be_none hu) (by omega)
    | some et =>
      by_cases h2 : et = 0x0800
      case neg => exact Or.inl (by simp [parse_dhcp_ack, h1, hu, h2])
      case pos =>
      by_cases h3 : f.length < 14 + 20
      · exact Or.inl (by simp [parse_dhcp_ack, h1, hu, h2, h3])
      · cases h14 : f[14]? with
        | none => exact absurd (List.getElem?_eq_none_iff.mp h14) (by omega)
        | some b14 =>
          cases h23 : f[23]? with
          | none => exact absurd (List.getElem?_eq_none_iff.mp h23) (by omega)
          | some proto =>
            by_cases hp : proto = 17
            case neg =>
              exact Or.inl (by simp [parse_dhcp_ack, h1, hu, h2, h3, h14, h23, hp])
            case pos =>
            by_cases h4 : f.length < 14 + b14 % 16 * 4 + 8
            · exact Or.inl (by simp [parse_dhcp_ack, h1, hu, h2, h3, h14, h23, hp, h4])
            · cases hs : unpack16be f (14 + b14 % 16 * 4) with
              | none => exact absurd (unpack16be_none hs) (by omega)
              | some sp =>
                cases hd : unpack16be f (14 + b14 % 16 * 4 + 2) with
                | none => exact absurd (unpack16be_none hd) (by omega)
                | some dp =>
                  by_cases hports : sp ≠ 67 ∨ dp ≠ 68
                  · exact Or.inl (by
                      simp only [parse_dhcp_ack, h1, hu, h2, h3, h14, h23, hp, h4, hs, hd]
                      simp [hports])
                  · push_neg at hports
                    by_cases h5 : (f.drop (14 + b14 % 16 * 4 + 8)).length < 240
                    · refine Or.inl ?_
                      have h5n : f.length - (14 + b14 % 16 * 4 + 8) < 240 := by
                        simpa using h5
                      simp [parse_dhcp_ack, h1, hu, h2, h3, h14, h23, hp, h4, hs, hd,
                        hports.1, hports.2, h5n]
                    · cases hop : (f.drop (14 + b14 % 16 * 4 + 8))[0]? with
                      | none =>
                        have := List.getElem?_eq_none_iff.mp hop
                        simp only [List.length_drop] at this h5
                        omega
                      | some op =>
                        by_cases hop2 : op = 2
                        case neg =>
                          exact Or.inl (by
                            simp [parse_dhcp_ack, h1, hu, h2, h3, h14, h23, hp, h4, hs, hd,
                              hports.1, hports.2, h5, hop, hop2])
                        case pos =>
                        cases hia : inet_ntoa (pySlice (f.drop (14 + b14 % 16 * 4 + 8)) 16 20) with
                        | none =>
                          refine absurd hia (inet_ntoa_ne_none ?_)
                          rw [pySlice_length]
                          omega
                        | some yia =>
                          by_cases hck :
                              pySlice (f.drop (14 + b14 % 16 * 4 + 8)) 236 240 ≠ DHCP_MAGIC
                          · exact Or.inl (by
                              simp only [parse_dhcp_ack, h1, hu, h2, h3, h14, h23, hp, h4,
                                hs, hd, hports.1, hports.2, h5, hop, hop2, hia]
                              simp [h1, h3, h4, h5, hck])
                          · cases hpo : parse_options (f.drop (14 + b14 % 16 * 4 + 8)) 240 with
                            | none =>
                              exact absurd hpo (parse_options_ne_none _ _)
                            | some opts =>
                              by_cases h53 : (opts 53).getD [0] ≠ [5]
                              · exact Or.inl (by
                                  simp only [parse_dhcp_ack, h1, hu, h2, h3, h14, h23, hp,
                                    h4, hs, hd, hports.1, hports.2, h5, hop, hop2, hia, hpo]
                                  simp [h1, h3, h4, h5, hck, h53])
                              · -- accepted
                                have hudp : udpOffOf f = 14 + b14 % 16 * 4 := by
                                  unfold udpOffOf ihlOf
                                  rw [byteAt_of_getElem? h14]
                                have hdh : dhcpOf f = f.drop (14 + b14 % 16 * 4 + 8) := by
                                  unfold dhcpOf
                                  rw [hudp]
                                push_neg at hck h53
                                refine Or.inr ⟨⟨yia,
                                  macString (pySlice (f.drop (14 + b14 % 16 * 4 + 8)) 28 34),
                                  match opts 12 with
                                  | some v => asciiReplace v
                                  | none => "unknown"⟩, ?_, by omega, ?_, ?_, ?_, ?_, ?_, ?_, ?_, ?_⟩
                                · simp only [parse_dhcp_ack, h1, hu, h2, h3, h14, h23, hp,
                                    h4, hs, hd, hports.1, hports.2, h5, hop, hop2, hia, hpo]
                                  simp [h1, h3, h4, h5, hck, h53]
                                · unfold ethertypeOf
                                  rw [← unpack16be_some hu]
                                  exact h2
                                · unfold protoOf
                                  rw [byteAt_of_getElem? h23]
                                  exact hp
                                · unfold srcPortOf
                                  rw [hudp, ← unpack16be_some hs]
                                  exact hports.1
                                · unfold dstPortOf
                                  have e2 : udpOffOf f + 2 = 14 + b14 % 16 * 4 + 2 := by omega
                                  have e3 : udpOffOf f + 3 = 14 + b14 % 16 * 4 + 2 + 1 := by omega
                                  rw [e2, e3, ← unpack16be_some hd]
                                  exact hports.2
                                · unfold opOf
                                  rw [hdh, byteAt_of_getElem? hop]
                                  exact hop2
                                · unfold cookieOf
                                  rw [hdh]
                                  exact hck
                                · unfold opt53Of optTableOf optionsTable
                                  rw [hdh, hpo]
                                  exact h53
                                · unfold hostnameOf12 opt12Of optTableOf optionsTable
                                  rw [hdh, hpo]
                                  rfl

/-! ## Claims -/

/-- C1: the Protocol Decoder is total: for every byte sequence, decode
terminates and returns either a rejection (`some none`) or a
`LeaseObservation`, never raising an exception and never reading out of
bounds (the exception layer `none` is unreachable), including on inputs
shorter than any header it inspects. -/
theorem decoder_total (f : ByteSeq) :
    ∃ r : Option LeaseObservation, parse_dhcp_ack f = some r := by
  rcases decode_shape f with h | ⟨obs, h, _⟩
  · exact ⟨none, h⟩
  · exact ⟨some obs, h⟩

/-- C2: every frame shorter than 14 bytes, or whose ethertype differs from
0x0800, or whose IP protocol byte differs from 17, or whose UDP ports are
not (67, 68), or whose BOOTP op byte differs from 2, or whose magic cookie
at payload offset 236..240 differs from 63 82 53 63, or whose option 53
value (absence read as the one-byte zero value) differs from 0x05, is
rejected (`some none`), never accepted. -/
theorem decoder_rejects_mismatched_frames (f : ByteSeq)
    (h : f.length < 14 ∨ ethertypeOf f ≠ 0x0800 ∨ protoOf f ≠ 17 ∨
      (srcPortOf f, dstPortOf f) ≠ (67, 68) ∨ opOf f ≠ 2 ∨
      cookieOf f ≠ DHCP_MAGIC ∨ opt53Of f ≠ [5]) :
    parse_dhcp_ack f = some none := by
  rcases decode_shape f with hr | ⟨obs, hr, hlen, he, hp, hsp, hdp, hop, hck, h53, _⟩
  · exact hr
  · exfalso
    rcases h with h | h | h | h | h | h | h
    · omega
    · exact h he
    · exact h hp
    · exact h (by rw [hsp, hdp])
    · exact h hop
    · exact h hck
    · exact h h53

theorem decoder_rejects_mismatched_frames_witness :
    (([] : ByteSeq).length < 14 ∨ ethertypeOf [] ≠ 0x0800 ∨ protoOf [] ≠ 17 ∨
      (srcPortOf [], dstPortOf []) ≠ (67, 68) ∨ opOf [] ≠ 2 ∨
      cookieOf [] ≠ DHCP_MAGIC ∨ opt53Of [] ≠ [5]) ∧
    parse_dhcp_ack [] = some none :=
  ⟨Or.inl (by decide), decoder_rejects_mismatched_frames [] (Or.inl (by decide))⟩

/-- C3: the Option Table Parser never reads past the end of the payload:
at any scan position holding a non-PAD, non-END option code where the
length byte itself, or the value bytes it declares, would extend past the
buffer end, the scan stops immediately and returns the mapping accumulated
so far as a normal result (never the error value `none`). -/
theorem options_truncation_returns_accumulated (p : ByteSeq) (i : Nat) (opts : Dict)
    (fuel code : Nat) (hi : i < p.length) (hc : p[i]? = some code)
    (h255 : code ≠ 255) (h0 : code ≠ 0)
    (ht : p.length ≤ i + 1 ∨ p.length < i + 2 + byteAt p (i + 1)) :
    parseOptsGo p (fuel + 1) i opts = some opts := by
  rcases ht with ht | ht
  · simp [parseOptsGo, hi, hc, h255, h0, ht]
  · by_cases hb : p.length ≤ i + 1
    · simp [parseOptsGo, hi, hc, h255, h0, hb]
    · cases hc2 : p[i + 1]? with
      | none => have := List.getElem?_eq_none_iff.mp hc2; omega
      | some lenB =>
        rw [byteAt_of_getElem? hc2] at ht
        simp [parseOptsGo, hi, hc, h255, h0, hb, hc2, ht]

theorem options_truncation_returns_accumulated_witness :
    (0 < ([12, 200] : ByteSeq).length ∧ ([12, 200] : ByteSeq)[0]? = some 12 ∧
      (12 : Nat) ≠ 255 ∧ (12 : Nat) ≠ 0 ∧
      (([12, 200] : ByteSeq).length ≤ 0 + 1 ∨
        ([12, 200] : ByteSeq).length < 0 + 2 + byteAt [12, 200] (0 + 1))) ∧
    parseOptsGo [12, 200] (0 + 1) 0 Dict.empty = some Dict.empty :=
  ⟨⟨by decide, by decide, by decide, by decide, Or.inr (by decide)⟩,
    options_truncation_returns_accumulated [12, 200] 0 Dict.empty 0 12
      (by decide) (by decide) (by decide) (by decide) (Or.inr (by decide))⟩

/-- C4: the Option Table Parser terminates for every payload and start
offset: any fuel beyond `payload.length - start` steps yields a result
(never the loop-did-not-finish value `none`), and the result no longer
depends on the fuel — the bounded forward scan never loops unboundedly,
regardless of the byte content. -/
theorem options_scan_terminates (p : ByteSeq) (start : Nat) (opts : Dict) (fuel : Nat)
    (h : p.length - start < fuel) :
    parseOptsGo p fuel start opts ≠ none ∧
    parseOptsGo p fuel start opts = parseOptsGo p (p.length + 1) start opts := by
  have h1 := parseOptsGo_eq_foldl p fuel start opts h
  have h2 := parseOptsGo_eq_foldl p (p.length + 1) start opts (by omega)
  refine ⟨by simp [h1], ?_⟩
  rw [h1, h2, optOccs_fuel_irrel p fuel (p.length + 1) start h (by omega)]

theorem options_scan_terminates_witness :
    ([53, 1, 5] : ByteSeq).length - 0 < 4 ∧
    (parseOptsGo [53, 1, 5] 4 0 Dict.empty ≠ none ∧
      parseOptsGo [53, 1, 5] 4 0 Dict.empty =
        parseOptsGo [53, 1, 5] (([53, 1, 5] : ByteSeq).length + 1) 0 Dict.empty) :=
  ⟨by decide, options_scan_terminates [53, 1, 5] 0 Dict.empty 4 (by decide)⟩

/-- C5: a well-formed synthetic DHCPACK frame (ethertype 0x0800, protocol
17, ports 67→68, op 2, valid magic cookie, option 53 = 0x05) carrying
yiaddr 10.0.0.5, hardware address aa:bb:cc:dd:ee:ff and option 12 "node1"
decodes to exactly that observation, the mac being the first six bytes at
payload offset 28..34 in lowercase colon hex. -/
theorem decode_ack_roundtrip :
    parse_dhcp_ack frame5 =
      some (some ⟨"10.0.0.5", "aa:bb:cc:dd:ee:ff", "node1"⟩) ∧
    pySlice (dhcpOf frame5) 28 34 = [0xaa, 0xbb, 0xcc, 0xdd, 0xee, 0xff] := by
  refine ⟨by decide, by decide⟩

/-- C6 counterexample: a frame whose option 12 carries `c3 a9`, the UTF-8
encoding of "é", is accepted with hostname U+FFFD U+FFFD — not the UTF-8
decoding "é" the claim requires; the source decodes as ASCII with
replacement, not UTF-8. -/
theorem hostname_utf8_counterexample :
    parse_dhcp_ack frame6 =
      some (some ⟨"10.0.0.5", "aa:bb:cc:dd:ee:ff", "��"⟩) ∧
    opt12Of frame6 = some (utf8EncodeSpec "é") ∧
    ("��" : String) ≠ "é" := by
  refine ⟨by decide, by decide, by decide⟩

/-- C6 amended: for every accepted frame, the hostname is the bytes of
DHCP option 12 decoded as ASCII with invalid bytes (≥ 0x80) replaced by
U+FFFD rather than causing a decode failure, and when option 12 is absent
the hostname is exactly the literal string "unknown". -/
theorem hostname_from_option12 (f : ByteSeq) (obs : LeaseObservation)
    (h : parse_dhcp_ack f = some (some obs)) :
    obs.hostname = hostnameOf12 f := by
  rcases decode_shape f with hr | ⟨obs2, hr, _, _, _, _, _, _, _, _, hh⟩
  · rw [h] at hr; simp at hr
  · rw [h] at hr
    simp only [Option.some.injEq] at hr
    rw [hr]
    exact hh

theorem hostname_from_option12_witness :
    parse_dhcp_ack frame6 =
      some (some ⟨"10.0.0.5", "aa:bb:cc:dd:ee:ff", "��"⟩) ∧
    LeaseObservation.hostname ⟨"10.0.0.5", "aa:bb:cc:dd:ee:ff", "��"⟩ =
      hostnameOf12 frame6 :=
  ⟨by decide, hostname_from_option12 frame6 _ (by decide)⟩

/-- C7: when the same option code occurs more than once in the scanned
option stream, the resulting table binds that code to the value bytes of
the last occurrence scanned (later duplicates overwrite earlier ones), and
the parser never rejects a payload for containing duplicates. -/
theorem options_duplicate_last_wins (p : ByteSeq) (start c : Nat)
    (hdup : 1 < ((optOccs p (p.length + 1) start).filter
      (fun cv => decide (cv.1 = c))).length) :
    parse_options p start ≠ none ∧
    optionsTable p start c = lookupLast (optOccs p (p.length + 1) start) c ∧
    lookupLast (optOccs p (p.length + 1) start) c ≠ none := by
  have hg := parseOptsGo_eq_foldl p (p.length + 1) start Dict.empty (by omega)
  have hne : parse_options p start ≠ none := by
    unfold parse_options; simp [hg]
  refine ⟨hne, ?_, ?_⟩
  · have htab : optionsTable p start =
        (optOccs p (p.length + 1) start).foldl
          (fun a cv => a.insert cv.1 cv.2) Dict.empty := by
      unfold optionsTable parse_options
      rw [hg]
      rfl
    rw [htab, foldl_insert_apply]
    cases hl : lookupLast (optOccs p (p.length + 1) start) c with
    | some v => simp
    | none => simp [Dict.empty]
  · have hpos : 0 < ((optOccs p (p.length + 1) start).filter
        (fun cv => decide (cv.1 = c))).length := by omega
    obtain ⟨x, hx⟩ := List.exists_mem_of_length_pos hpos
    have hx2 := List.mem_filter.mp hx
    exact lookupLast_ne_none hx2.1 (by simpa using hx2.2)

theorem options_duplicate_last_wins_witness :
    1 < ((optOccs [12, 1, 65, 12, 1, 66, 255]
        (([12, 1, 65, 12, 1, 66, 255] : ByteSeq).length + 1) 0).filter
      (fun cv => decide (cv.1 = 12))).length ∧
    (parse_options [12, 1, 65, 12, 1, 66, 255] 0 ≠ none ∧
      optionsTable [12, 1, 65, 12, 1, 66, 255] 0 12 =
        lookupLast (optOccs [12, 1, 65, 12, 1, 66, 255]
          (([12, 1, 65, 12, 1, 66, 255] : ByteSeq).length + 1) 0) 12 ∧
      lookupLast (optOccs [12, 1, 65, 12, 1, 66, 255]
        (([12, 1, 65, 12, 1, 66, 255] : ByteSeq).length + 1) 0) 12 ≠ none) :=
  ⟨by decide, options_duplicate_last_wins [12, 1, 65, 12, 1, 66, 255] 0 12 (by decide)⟩

/-- C8: a failed launch of the hook executable (`Popen` raising `OSError`)
is caught and logged and never propagates to the Capture Loop: the trace
after the failed dispatch is exactly the trace of the remaining events, so
the loop proceeds to receive and decode the next frame with its state
unchanged. -/
theorem dispatch_failure_isolated (data : ByteSeq) (obs : LeaseObservation)
    (rest : List RecvEvent) (h : parse_dhcp_ack data = some (some obs)) :
    captureLoop (RecvEvent.frame data true :: rest) =
      Effect.logAck obs.ip obs.mac obs.hostname ::
        Effect.logHookFail :: captureLoop rest := by
  simp [captureLoop, h]

theorem dispatch_failure_isolated_witness :
    parse_dhcp_ack frame5 =
      some (some ⟨"10.0.0.5", "aa:bb:cc:dd:ee:ff", "node1"⟩) ∧
    captureLoop [RecvEvent.frame frame5 true] =
      [Effect.logAck "10.0.0.5" "aa:bb:cc:dd:ee:ff" "node1", Effect.logHookFail] :=
  ⟨by decide, by
    have hw := dispatch_failure_isolated frame5
      ⟨"10.0.0.5", "aa:bb:cc:dd:ee:ff", "node1"⟩ [] (by decide)
    simpa [captureLoop] using hw⟩

/-- C9: if the configured hook executable does not exist at startup, the
run logs the missing-hook error and exits with status 1 — a non-zero
status — before any socket is created or bound. -/
theorem missing_hook_exits_before_bind (env : Env) (h : env.hookExists = false) :
    runMain env =
      Effect.logStart :: ((if env.syslogServer then [Effect.logSyslog] else []) ++
        [Effect.logHookMissing, Effect.exitProc 1]) ∧
    Effect.openSock ∉ runMain env ∧ Effect.bindSock ∉ runMain env ∧
    Effect.exitProc 1 ∈ runMain env ∧ Effect.exitProc 0 ∉ runMain env := by
  cases hs : env.syslogServer <;> simp [runMain, h, hs]

theorem missing_hook_exits_before_bind_witness :
    (Env.mk false false []).hookExists = false ∧
    Effect.bindSock ∉ runMain (Env.mk false false []) ∧
    Effect.exitProc 1 ∈ runMain (Env.mk false false []) :=
  ⟨rfl, (missing_hook_exits_before_bind (Env.mk false false []) rfl).2.2.1,
    (missing_hook_exits_before_bind (Env.mk false false []) rfl).2.2.2.1⟩

/-- C10: the decoder places no lower bound on the IP header-length field:
`frame10` has IHL nibble 0 (header length 0, below the 20-byte IPv4
minimum), is not rejected on that ground, has its UDP ports read at offset
14 + 4×IHL = 14 — inside the region checked as the IP header — and still
decodes to a LeaseObservation. -/
theorem ihl_below_minimum_accepted :
    byteAt frame10 14 % 16 = 0 ∧ ihlOf frame10 = 0 ∧ udpOffOf frame10 = 14 ∧
    parse_dhcp_ack frame10 =
      some (some ⟨"10.0.0.7", "01:02:03:04:05:06", "unknown"⟩) := by
  refine ⟨by decide, by decide, by decide, by decide⟩
